import Mathlib

/-!
# Verification of the prediction-market settlement engine

A shallow embedding, in Lean 4, of the Solana/Anchor prediction-market
program (crate `prediction-market`).  The repository contains two parallel
implementations of the betting core:

* `src/lib.rs` — a self-contained binary (yes/no) market with
  `initialize_market`, `place_bet`, `resolve_market`, `claim_winnings`,
  `cancel_market` and `refund_bet`; it extracts no fees.
* `src/instructions/*.rs` — a modular variant whose `resolve_market`
  extracts a protocol fee and stores a payout ratio, whose
  `claim_winnings` computes parimutuel winnings and deducts a platform
  fee at claim time, and which adds the AMM-style `add_liquidity` /
  `remove_liquidity` operations.

Both variants are embedded below (suffix `L` for the `lib.rs` layer,
suffix `I`/`P` for the `instructions` layer).  Machine integers are
modelled as `Nat` with the checked-arithmetic APIs (`checked_add`,
`checked_mul`, ...) embedded as `Option`-returning guards against the
explicit bounds `2^64` / `2^128`; a plain Rust `as u64` cast from `u128`
is modelled as reduction mod `2^64`, and `as u64` from `f64` as a
saturating truncation, exactly as Rust defines them.  Fallible
instructions return `Except Err`, with an error meaning the transaction
aborts and no state is written (the atomicity the Anchor runtime
provides).

The source computes three money-affecting values in IEEE-754 double
precision (`black-box f64` in the Rust): the initial LP amount
`(product as f64).sqrt() as u64` in `add_liquidity`, and the two odds
figures `(a as f64 / b as f64 * 10000.0) as u64` in `place_bet`.  These
are embedded exactly, by an integer-arithmetic model of round-to-nearest,
ties-to-even double rounding: `roundF64` (integer → nearest double),
`sqrtRound`/`f64SqrtTrunc` (correctly rounded square root, truncated),
and `f64DivMul10000` (correctly rounded quotient, times `10000.0`
correctly rounded, truncated).  Correctness arguments for the models are
given with the definitions.
-/

set_option maxRecDepth 4000

/-- Number of values of a `u64`; `checked_*` u64 arithmetic guards against it. -/
def u64Mod : ℕ := 2 ^ 64

/-- Largest `u64` value. -/
def u64Max : ℕ := 2 ^ 64 - 1

/-- Number of values of a `u128`. -/
def u128Mod : ℕ := 2 ^ 128

/-- The error codes surfaced by the embedded instructions (drawn from
`errors`/`error.rs` and the `require!`/constraint sites that use them;
`transferFailed` stands for a failed SPL-token CPI, and
`accountAlreadyInitialized` / `accountNotInitialized` for the Anchor
`init` account errors). -/
inductive Err where
  | marketNotActive
  | marketExpired
  | marketNotExpired
  | marketNotResolved
  | marketNotCancelled
  | invalidOutcome
  | oracleDataTooLarge
  | invalidOracle
  | unauthorizedOracle
  | invalidBetAmount
  | betAmountTooLow
  | betAmountTooHigh
  | payoutTooHigh
  | alreadyClaimed
  | invalidPosition
  | noWinnings
  | losingBet
  | unauthorizedClaimer
  | unauthorizedCancel
  | mathOverflow
  | overflow
  | divisionByZero
  | invalidAmount
  | insufficientLpTokens
  | emptyPool
  | insufficientPoolBalance
  | slippageExceeded
  | transferFailed
  | accountAlreadyInitialized
  | accountNotInitialized
  deriving DecidableEq

/-- `checked_add` on `u64`: the sum, if it fits in 64 bits. -/
def chkAdd64 (a b : ℕ) : Option ℕ :=
  if a + b < u64Mod then some (a + b) else none

/-- `checked_mul` on `u64`. -/
def chkMul64 (a b : ℕ) : Option ℕ :=
  if a * b < u64Mod then some (a * b) else none

/-- `checked_mul` on `u128`. -/
def chkMul128 (a b : ℕ) : Option ℕ :=
  if a * b < u128Mod then some (a * b) else none

/-- `checked_sub` (no underflow below zero). -/
def chkSub (a b : ℕ) : Option ℕ :=
  if b ≤ a then some (a - b) else none

/-- `checked_div` (none exactly on a zero divisor). -/
def chkDiv (a b : ℕ) : Option ℕ :=
  if b = 0 then none else some (a / b)

/-- `Option.ok_or`: lift a checked-arithmetic result into `Except`,
tagging `none` with the given error, as the Rust `ok_or(...)?` does. -/
def okOr (o : Option ℕ) (e : Err) : Except Err ℕ :=
  match o with
  | some n => Except.ok n
  | none => Except.error e

-- Results of fallible instructions are compared in concrete
-- evaluations, so equality on `Except` must be decidable.
deriving instance DecidableEq for Except

/-! ## Integer model of the IEEE-754 double computations

A finite nonnegative double is `m * 2 ^ E` with `m < 2 ^ 53`.  Every
float operation in the source rounds its exact result to the nearest
such value, ties to even significand.  The helpers below perform that
rounding with integer arithmetic only.  Fuel-based recursion is used for
the binary logarithm so that the kernel can evaluate it. -/

/-- Fuelled floor of the binary logarithm: `logTwoF f n = ⌊log₂ n⌋` for
`1 ≤ n < 2 ^ f` (and `0` for `n = 0`). -/
def logTwoF : ℕ → ℕ → ℕ
  | 0, _ => 0
  | f + 1, n => if n ≤ 1 then 0 else logTwoF f (n / 2) + 1

/-- Round a natural number to the nearest double (ties to even): exact
below `2 ^ 53`; otherwise the low `e - 52` bits are rounded away, where
`e = ⌊log₂ n⌋`.  This is Rust `n as f64` for unsigned `n`, as a natural
number (the result is an integer because the grid step `2 ^ (e - 52)`
is ≥ 1 there). -/
def roundF64 (n : ℕ) : ℕ :=
  if n ≤ 2 ^ 53 then n
  else
    let e := logTwoF 256 n
    let p := e - 52
    let q := n / 2 ^ p
    let r := n % 2 ^ p
    if 2 ^ (p - 1) < r ∨ (r = 2 ^ (p - 1) ∧ q % 2 = 1) then (q + 1) * 2 ^ p
    else q * 2 ^ p

/-- Nearest integer to `√v` (for an integer `v` a tie `√v = s + 1/2` is
impossible, since `(s + 1/2) ^ 2` is not an integer): it is
`Nat.sqrt v + 1` exactly when `√v > s + 1/2`, i.e. `s * (s + 1) < v`. -/
def sqrtRound (v : ℕ) : ℕ :=
  if Nat.sqrt v * (Nat.sqrt v + 1) < v then Nat.sqrt v + 1 else Nat.sqrt v

/-- On a perfect square the rounded square root is exact. -/
lemma sqrtRound_sq (n : ℕ) : sqrtRound (n * n) = n := by
  unfold sqrtRound
  rw [Nat.sqrt_eq, if_neg (Nat.not_lt.mpr (Nat.mul_le_mul_left n (Nat.le_succ n)))]

/-- Correctly rounded double square root of a representable integer `y`,
truncated toward zero and saturated to `u64` — Rust
`(y_as_f64).sqrt() as u64` given `y = roundF64 x`.

With `m = ⌊log₂ y⌋ / 2` we have `√y ∈ [2 ^ m, 2 ^ (m+1))`, where the
double grid step is `2 ^ (m - 52)`.  For `m ≤ 52` the grid step is
`1 / 2 ^ j` with `j = 52 - m`, so the rounded root is
`(nearest integer to √(y·4^j))) / 2 ^ j` and truncation is integer
division.  For `m > 52` the step is `2 ^ (m - 52)` and `y` (being
representable with exponent ≥ 2m - 104) is divisible by the square of
the step, so the rounded root is `2 ^ (m-52) ·` the nearest integer to
`√(y / 4 ^ (m-52))`. -/
def f64SqrtPosTrunc (y : ℕ) : ℕ :=
  if logTwoF 256 y / 2 ≤ 52 then
    sqrtRound (y * 4 ^ (52 - logTwoF 256 y / 2)) / 2 ^ (52 - logTwoF 256 y / 2)
  else
    min (sqrtRound (y / 4 ^ (logTwoF 256 y / 2 - 52)) * 2 ^ (logTwoF 256 y / 2 - 52))
      u64Max

/-- Rust `(x as f64).sqrt() as u64` for an unsigned integer `x`: first
the conversion rounds `x`, then the square root is correctly rounded,
then the cast truncates (saturating). -/
def f64SqrtTrunc (x : ℕ) : ℕ := f64SqrtPosTrunc (roundF64 x)

/-- Correctly rounded double quotient of representable integers
`a / b` (with `b ≥ 1`, `a ≥ b`): the significand-exponent pair
`(m, E)` of the nearest double `m * 2 ^ E`, `2 ^ 52 ≤ m ≤ 2 ^ 53`.
With `e = ⌊log₂ (a / b)⌋` (equal to `⌊log₂ ⌊a / b⌋⌋` since `a/b ≥ 1`),
the significand is the nearest integer (ties to even) to
`a · 2 ^ (52 - e) / b`, resp. `a / (b · 2 ^ (e - 52))`. -/
def rnd53Div (a b : ℕ) : ℕ × ℤ :=
  let e := logTwoF 256 (a / b)
  if e ≤ 52 then
    let q := a * 2 ^ (52 - e) / b
    let r := a * 2 ^ (52 - e) % b
    (if b < 2 * r ∨ (2 * r = b ∧ q % 2 = 1) then q + 1 else q, -((52 - e : ℕ) : ℤ))
  else
    let q := a / (b * 2 ^ (e - 52))
    let r := a % (b * 2 ^ (e - 52))
    (if b * 2 ^ (e - 52) < 2 * r ∨ (2 * r = b * 2 ^ (e - 52) ∧ q % 2 = 1) then q + 1
     else q, ((e - 52 : ℕ) : ℤ))

/-- Multiply a double `m * 2 ^ E` by the exact constant `10000.0` and
round to nearest (ties to even): round the integer `m * 10000` to 53
significant bits and shift the exponent. -/
def mul10000Rnd (m : ℕ) (E : ℤ) : ℕ × ℤ :=
  let p := m * 10000
  let e2 := logTwoF 256 p
  if e2 ≤ 52 then (p, E)
  else
    let q := p / 2 ^ (e2 - 52)
    let r := p % 2 ^ (e2 - 52)
    (if 2 ^ (e2 - 53) < r ∨ (r = 2 ^ (e2 - 53) ∧ q % 2 = 1) then q + 1 else q,
     E + (e2 - 52 : ℕ))

/-- Rust `x as u64` for a nonnegative double `x = m * 2 ^ E`:
truncation toward zero, saturating at `u64::MAX`. -/
def truncU64 (m : ℕ) (E : ℤ) : ℕ :=
  if 0 ≤ E then min (m * 2 ^ E.toNat) u64Max else m / 2 ^ (-E).toNat

/-- Rust `(a as f64 / b as f64 * 10000.0) as u64` for unsigned `a ≥ b`:
both operands are rounded by the conversion, the quotient is correctly
rounded, the product with `10000.0` is correctly rounded, and the cast
truncates.  For `b = 0` the double quotient is `+∞` and the saturating
cast yields `u64::MAX`. -/
def f64DivMul10000 (a b : ℕ) : ℕ :=
  if b = 0 then u64Max
  else
    truncU64 (mul10000Rnd (rnd53Div (roundF64 a) (roundF64 b)).1
        (rnd53Div (roundF64 a) (roundF64 b)).2).1
      (mul10000Rnd (rnd53Div (roundF64 a) (roundF64 b)).1
        (rnd53Div (roundF64 a) (roundF64 b)).2).2

example : logTwoF 256 1 = 0 := by decide
example : logTwoF 256 (2 ^ 54) = 54 := by decide
example : roundF64 (2 ^ 54 - 1) = 2 ^ 54 := by decide
example : roundF64 (2 ^ 53 + 1) = 2 ^ 53 := by decide
example : roundF64 12345 = 12345 := by decide
example : f64DivMul10000 300 200 = 15000 := by decide
example : f64DivMul10000 100 100 = 10000 := by decide
example : f64DivMul10000 400 300 = 13333 := by decide
example : f64DivMul10000 7 0 = u64Max := by decide

/-! ## The `instructions` layer: market, position, resolve, claim

`resolve_market.rs` and `claim_winnings.rs` address the same stored
market through two field vocabularies (`winning_outcome : Option<u8>` /
`outcome_pools : Vec<u64>` vs `resolved_outcome : Option<Outcome>` /
`yes_pool`, `no_pool`).  The embedding models the binary market they
share: index `0` is `Yes`, index `1` is `No`, `outcome_pools` is
`[yes_pool, no_pool]`, and the single stored winning outcome backs both
vocabularies. -/

/-- The two outcomes of `claim_winnings.rs`. -/
inductive Outc where
  | yes
  | no
  deriving DecidableEq

/-- Market status (`state.rs`). -/
inductive MarketStatus where
  | active
  | paused
  | resolved
  | cancelled
  deriving DecidableEq

/-- The market fields read and written by `resolve_market.rs` and
`claim_winnings.rs` (binary case).  Pubkeys are modelled as `ℕ`. -/
structure MarketI where
  key : ℕ
  oracle : ℕ
  status : MarketStatus
  resolutionTime : ℤ
  yesPool : ℕ
  noPool : ℕ
  totalPool : ℕ
  protocolFeeRateBps : ℕ
  feeRateBps : ℕ
  payoutRatioBps : ℕ
  winningOutcome : Option Outc
  resolutionTimestamp : ℤ
  oracleData : List ℕ
  totalClaimed : ℕ
  deriving DecidableEq

/-- `outcome_pools` of the binary market. -/
def MarketI.outcomePools (m : MarketI) : List ℕ := [m.yesPool, m.noPool]

/-- Outcome of a `u8` index (`0` is Yes, `1` is No). -/
def outcOfIndex (i : ℕ) : Outc := if i = 0 then Outc.yes else Outc.no

/-- The position fields used by `claim_winnings.rs`. -/
structure PositionI where
  market : ℕ
  user : ℕ
  outcome : Outc
  amount : ℕ
  claimed : Bool
  claimedAt : ℤ
  deriving DecidableEq

/-- State touched by `resolve_market`: the market, its vault balance and
the protocol-fee account balance. -/
structure RStateI where
  market : MarketI
  vault : ℕ
  protocolFeeBalance : ℕ
  deriving DecidableEq

/-- `resolve_market` (`resolve_market.rs`).  Anchor first checks the
account constraints in declaration order — market `Active`
(`MarketNotActive`), `resolution_time ≤ now` (`MarketNotExpired`),
`oracle` is the market oracle (`InvalidOracle`) — then the handler
validates the outcome index and the oracle payload, marks the market
resolved, extracts `protocol_fee = total_pool * protocol_fee_rate / 10000`
from the vault, and stores
`payout_ratio = (total_pool - protocol_fee) * 10000 / winning_pool`
(zero when the winning pool is empty). -/
def resolveMarketI (s : RStateI) (oracleSigner : ℕ) (outcome : ℕ)
    (oracleData : List ℕ) (now : ℤ) : Except Err RStateI := do
  if s.market.status ≠ MarketStatus.active then throw Err.marketNotActive
  if ¬ s.market.resolutionTime ≤ now then throw Err.marketNotExpired
  if oracleSigner ≠ s.market.oracle then throw Err.invalidOracle
  if ¬ outcome < s.market.outcomePools.length then throw Err.invalidOutcome
  if oracleData ≠ [] ∧ ¬ oracleData.length ≤ 256 then throw Err.oracleDataTooLarge
  let totalPool := s.market.totalPool
  let pfNum ← okOr (chkMul64 totalPool s.market.protocolFeeRateBps) Err.mathOverflow
  let protocolFee := pfNum / 10000
  if protocolFee > 0 ∧ s.vault < protocolFee then throw Err.transferFailed
  let winningPool := s.market.outcomePools.getD outcome 0
  let remainingPool ← okOr (chkSub totalPool protocolFee) Err.mathOverflow
  let ratio ←
    if winningPool > 0 then do
      let t ← okOr (chkMul64 remainingPool 10000) Err.mathOverflow
      okOr (chkDiv t winningPool) Err.mathOverflow
    else pure 0
  pure { market := { s.market with
            status := MarketStatus.resolved
            winningOutcome := some (outcOfIndex outcome)
            resolutionTimestamp := now
            oracleData := oracleData
            payoutRatioBps := ratio }
         vault := s.vault - protocolFee
         protocolFeeBalance := s.protocolFeeBalance + protocolFee }

/-- `calculate_winnings` (`claim_winnings.rs`): zero for a losing
position; otherwise the parimutuel gross
`position.amount * (winning_pool + losing_pool) / winning_pool`
(widened to `u128`) minus the claim-time platform fee
`gross * fee_rate / 10000`, guarded against exceeding `u64::MAX`.
Note: the `payout_ratio` stored at resolution is not consulted. -/
def calculateWinningsI (m : MarketI) (p : PositionI) : Except Err ℕ := do
  match m.winningOutcome with
  | none => throw Err.marketNotResolved
  | some w =>
    if p.outcome ≠ w then pure 0
    else do
      let totalWinningPool := match w with
        | Outc.yes => m.yesPool
        | Outc.no => m.noPool
      let totalLosingPool := match w with
        | Outc.yes => m.noPool
        | Outc.no => m.yesPool
      let totalPool ← okOr (chkAdd64 totalWinningPool totalLosingPool) Err.mathOverflow
      let grossNum ← okOr (chkMul128 p.amount totalPool) Err.mathOverflow
      let gross ← okOr (chkDiv grossNum totalWinningPool) Err.mathOverflow
      let feeNum ← okOr (chkMul128 gross m.feeRateBps) Err.mathOverflow
      let platformFee := feeNum / 10000
      let net ← okOr (chkSub gross platformFee) Err.mathOverflow
      if u64Max < net then throw Err.mathOverflow
      pure net

/-- State touched by `claim_winnings`: market, the claiming user's
position, the vault and the user's token balance. -/
structure CStateI where
  market : MarketI
  position : PositionI
  vault : ℕ
  userBalance : ℕ
  deriving DecidableEq

/-- `claim_winnings` (`claim_winnings.rs`).  Anchor constraint order:
market `Resolved` (`MarketNotResolved`), position belongs to the market
and the signing user (`InvalidPosition`), position unclaimed
(`AlreadyClaimed`).  The handler computes the winnings, rejects a zero
result (`NoWinnings`), marks the position claimed, transfers the
winnings from the vault and accumulates `total_claimed`. -/
def claimWinningsI (s : CStateI) (caller : ℕ) (now : ℤ) : Except Err CStateI := do
  if s.market.status ≠ MarketStatus.resolved then throw Err.marketNotResolved
  if s.position.market ≠ s.market.key then throw Err.invalidPosition
  if s.position.user ≠ caller then throw Err.invalidPosition
  if s.position.claimed then throw Err.alreadyClaimed
  let winnings ← calculateWinningsI s.market s.position
  if ¬ winnings > 0 then throw Err.noWinnings
  if s.vault < winnings then throw Err.transferFailed
  let newClaimed ← okOr (chkAdd64 s.market.totalClaimed winnings) Err.mathOverflow
  pure { market := { s.market with totalClaimed := newClaimed }
         position := { s.position with claimed := true, claimedAt := now }
         vault := s.vault - winnings
         userBalance := s.userBalance + winnings }

/-! ## Resolution and claim: theorems -/

/-- Scenario-1 market of the spec: pools 1000/1000, protocol fee 200
bps, no claim-time fee, oracle `7`, deadline `100`. -/
def mktScn1 : MarketI :=
  { key := 1, oracle := 7, status := MarketStatus.active, resolutionTime := 100,
    yesPool := 1000, noPool := 1000, totalPool := 2000, protocolFeeRateBps := 200,
    feeRateBps := 0, payoutRatioBps := 0, winningOutcome := none,
    resolutionTimestamp := 0, oracleData := [], totalClaimed := 0 }

/-- `mktScn1` after `resolve_market(Yes)` at time 100: fee 40 gone from
the pool, ratio `(2000 - 40) * 10000 / 1000 = 19600` stored. -/
def mktScn1Res : MarketI :=
  { mktScn1 with
    status := MarketStatus.resolved
    winningOutcome := some Outc.yes
    resolutionTimestamp := 100
    payoutRatioBps := 19600 }

/-- The sole Yes bettor of Scenario 1 (stake 1000). -/
def posScn1Win : PositionI :=
  { market := 1, user := 5, outcome := Outc.yes, amount := 1000, claimed := false,
    claimedAt := 0 }

/-- The sole No bettor of Scenario 1 (stake 1000). -/
def posScn1Lose : PositionI :=
  { market := 1, user := 6, outcome := Outc.no, amount := 1000, claimed := false,
    claimedAt := 0 }

/-- C5: a successful resolve of an Active market by the designated
oracle at or after the deadline extracts
`protocol_fee = total_pool * protocol_fee_rate_bps / 10000` from the
market vault into the protocol-fee account, and stores
`payout_ratio_bps = (total_pool - protocol_fee) * 10000 / winning_pool`
when the winning pool is positive, `0` (retaining the remaining pool in
the vault) when it is zero.  The hypotheses `hmul`, `hrate`, `hvault`
and `hratio` characterise exactly the calls on which the checked
arithmetic and the fee transfer succeed. -/
theorem resolveMarketI_fee_and_ratio (s : RStateI) (oracleSigner outcome : ℕ)
    (od : List ℕ) (now : ℤ)
    (hact : s.market.status = MarketStatus.active)
    (htime : s.market.resolutionTime ≤ now)
    (horc : oracleSigner = s.market.oracle)
    (hout : outcome < 2)
    (hdata : od.length ≤ 256)
    (hmul : s.market.totalPool * s.market.protocolFeeRateBps < u64Mod)
    (hrate : s.market.protocolFeeRateBps ≤ 10000)
    (hvault : s.market.totalPool ≤ s.vault)
    (hratio : 0 < s.market.outcomePools.getD outcome 0 →
      (s.market.totalPool - s.market.totalPool * s.market.protocolFeeRateBps / 10000) * 10000
        < u64Mod) :
    resolveMarketI s oracleSigner outcome od now = Except.ok
      { market := { s.market with
          status := MarketStatus.resolved
          winningOutcome := some (outcOfIndex outcome)
          resolutionTimestamp := now
          oracleData := od
          payoutRatioBps :=
            if 0 < s.market.outcomePools.getD outcome 0 then
              (s.market.totalPool - s.market.totalPool * s.market.protocolFeeRateBps / 10000)
                * 10000 / s.market.outcomePools.getD outcome 0
            else 0 }
        vault := s.vault - s.market.totalPool * s.market.protocolFeeRateBps / 10000
        protocolFeeBalance :=
          s.protocolFeeBalance + s.market.totalPool * s.market.protocolFeeRateBps / 10000 } := by
  have hfee_le : s.market.totalPool * s.market.protocolFeeRateBps / 10000
      ≤ s.market.totalPool := by
    calc s.market.totalPool * s.market.protocolFeeRateBps / 10000
        ≤ s.market.totalPool * 10000 / 10000 :=
          Nat.div_le_div_right (Nat.mul_le_mul_left _ hrate)
      _ = s.market.totalPool := by omega
  have hnv : ¬ (0 < s.market.totalPool * s.market.protocolFeeRateBps / 10000 ∧
      s.vault < s.market.totalPool * s.market.protocolFeeRateBps / 10000) := by
    rintro ⟨-, hlt⟩
    omega
  obtain rfl | rfl : outcome = 0 ∨ outcome = 1 := by omega
  · rcases Nat.eq_zero_or_pos s.market.yesPool with hy | hy
    · simp [resolveMarketI, MarketI.outcomePools, okOr, chkMul64, chkSub, chkDiv,
        Bind.bind, Except.bind, Pure.pure, Except.pure, Functor.map, Except.map,
        hact, htime, horc, hdata, hmul, hfee_le, hnv, hy]
    · have h10 : (s.market.totalPool - s.market.totalPool * s.market.protocolFeeRateBps / 10000)
          * 10000 < u64Mod := hratio (by simpa [MarketI.outcomePools] using hy)
      simp [resolveMarketI, MarketI.outcomePools, okOr, chkMul64, chkSub, chkDiv,
        Bind.bind, Except.bind, Pure.pure, Except.pure, Functor.map, Except.map,
        hact, htime, horc, hdata, hmul, hfee_le, hnv, hy, hy.ne', h10]
  · rcases Nat.eq_zero_or_pos s.market.noPool with hy | hy
    · simp [resolveMarketI, MarketI.outcomePools, okOr, chkMul64, chkSub, chkDiv,
        Bind.bind, Except.bind, Pure.pure, Except.pure, Functor.map, Except.map,
        hact, htime, horc, hdata, hmul, hfee_le, hnv, hy]
    · have h10 : (s.market.totalPool - s.market.totalPool * s.market.protocolFeeRateBps / 10000)
          * 10000 < u64Mod := hratio (by simpa [MarketI.outcomePools] using hy)
      simp [resolveMarketI, MarketI.outcomePools, okOr, chkMul64, chkSub, chkDiv,
        Bind.bind, Except.bind, Pure.pure, Except.pure, Functor.map, Except.map,
        hact, htime, horc, hdata, hmul, hfee_le, hnv, hy, hy.ne', h10]

/-- Witness for `resolveMarketI_fee_and_ratio`: the Scenario-1 market
resolves to Yes with fee `40` leaving the vault at `1960`, and stores
ratio `19600`. -/
theorem resolveMarketI_fee_and_ratio_witness :
    resolveMarketI { market := mktScn1, vault := 2000, protocolFeeBalance := 0 }
      7 0 [] 100 = Except.ok
      { market := mktScn1Res, vault := 1960, protocolFeeBalance := 40 } := by
  have h := resolveMarketI_fee_and_ratio
    { market := mktScn1, vault := 2000, protocolFeeBalance := 0 } 7 0 [] 100
    rfl (by norm_num [mktScn1]) rfl (by norm_num) (by simp)
    (by norm_num [mktScn1, u64Mod]) (by norm_num [mktScn1]) (by norm_num [mktScn1])
    (fun _ => by norm_num [mktScn1, u64Mod])
  simpa [mktScn1, mktScn1Res, MarketI.outcomePools, outcOfIndex] using h

/-- C2: the claim path contradicts the resolution path.  After the
Scenario-1 resolve, the stored ratio prescribes a net claim of
`1000 * 19600 / 10000 = 1960`, but `calculate_winnings` ignores the
stored `payout_ratio` and computes `1000 * 2000 / 1000 = 2000` from the
pre-fee pool; since the vault keeps only `1960` after the protocol fee
left at resolution, the claim transfer itself cannot be funded. -/
theorem claimWinningsI_ignores_stored_ratio :
    resolveMarketI { market := mktScn1, vault := 2000, protocolFeeBalance := 0 }
        7 0 [] 100 =
      Except.ok { market := mktScn1Res, vault := 1960, protocolFeeBalance := 40 } ∧
    calculateWinningsI mktScn1Res posScn1Win = Except.ok 2000 ∧
    posScn1Win.amount * mktScn1Res.payoutRatioBps / 10000 = 1960 ∧
    (2000 : ℕ) ≠ 1960 ∧
    claimWinningsI
        { market := mktScn1Res, position := posScn1Win, vault := 1960, userBalance := 0 }
        5 101 =
      Except.error Err.transferFailed := by
  refine ⟨?_, ?_, by decide, by decide, ?_⟩
  · decide
  · decide
  · decide

/-- C1: conservation fails on the code.  In Scenario 1 (two bettors,
protocol fee 200 bps, claim-time fee 0), resolution extracts `40`; the
sole winning claim computes to `2000`, the losing position cannot claim
at all (`NoWinnings`), so the sum of net claims plus the protocol fee is
`2040 ≠ 2000`, off by `40 >` the number of claimants (2) — and the
winning claim cannot even be paid from the post-fee vault. -/
theorem conservation_fails_on_code :
    resolveMarketI { market := mktScn1, vault := 2000, protocolFeeBalance := 0 }
        7 0 [] 100 =
      Except.ok { market := mktScn1Res, vault := 1960, protocolFeeBalance := 40 } ∧
    calculateWinningsI mktScn1Res posScn1Win = Except.ok 2000 ∧
    claimWinningsI
        { market := mktScn1Res, position := posScn1Lose, vault := 1960, userBalance := 0 }
        6 101 =
      Except.error Err.noWinnings ∧
    claimWinningsI
        { market := mktScn1Res, position := posScn1Win, vault := 1960, userBalance := 0 }
        5 101 =
      Except.error Err.transferFailed ∧
    2000 + 40 ≠ 2000 ∧ 2000 + 40 - 2000 > 2 := by
  exact ⟨by decide, by decide, by decide, by decide, by decide, by decide⟩

/-- C3 counterexample: on the resolved Scenario-1 market the losing
position computes zero winnings, but `claim_winnings` then fails with
`NoWinnings` instead of succeeding — the position is never marked
claimed and the claim cannot be recorded. -/
theorem losing_claim_rejected_cex :
    calculateWinningsI mktScn1Res posScn1Lose = Except.ok 0 ∧
    claimWinningsI
        { market := mktScn1Res, position := posScn1Lose, vault := 1960, userBalance := 0 }
        6 101 =
      Except.error Err.noWinnings := by
  exact ⟨by decide, by decide⟩

/-- C3 amended: for every resolved market and unclaimed position on the
losing outcome, `calculate_winnings` returns `0` and `claim_winnings`
fails with `NoWinnings`; the transaction aborts, so the claimed flag is
not set and no transfer happens. -/
theorem losing_claim_fails_noWinnings (s : CStateI) (caller : ℕ) (now : ℤ) (w : Outc)
    (hres : s.market.status = MarketStatus.resolved)
    (hw : s.market.winningOutcome = some w)
    (hkey : s.position.market = s.market.key)
    (huser : s.position.user = caller)
    (hunclaimed : s.position.claimed = false)
    (hlose : s.position.outcome ≠ w) :
    calculateWinningsI s.market s.position = Except.ok 0 ∧
    claimWinningsI s caller now = Except.error Err.noWinnings := by
  have hcw : calculateWinningsI s.market s.position = Except.ok 0 := by
    simp [calculateWinningsI, hw, hlose, Pure.pure, Except.pure]
  refine ⟨hcw, ?_⟩
  simp [claimWinningsI, hres, hkey, huser, hunclaimed, hcw,
    Bind.bind, Except.bind, Pure.pure, Except.pure]

/-- Witness for `losing_claim_fails_noWinnings` at the Scenario-1 losing
position. -/
theorem losing_claim_fails_noWinnings_witness :
    calculateWinningsI mktScn1Res posScn1Lose = Except.ok 0 ∧
    claimWinningsI
        { market := mktScn1Res, position := posScn1Lose, vault := 1960, userBalance := 0 }
        6 101 =
      Except.error Err.noWinnings :=
  losing_claim_fails_noWinnings
    { market := mktScn1Res, position := posScn1Lose, vault := 1960, userBalance := 0 }
    6 101 Outc.yes (by decide) (by decide) (by decide) (by decide) (by decide) (by decide)

/-! ## `add_liquidity` (`add_liquidity.rs`) -/

/-- State touched by `add_liquidity`: market status and deadline, the
two outcome vault balances (the reserves the ratio formula reads), the
LP mint supply, the provider's three token balances, the user liquidity
position, the pool counters and the market liquidity counter. -/
structure LqState where
  marketStatus : MarketStatus
  resolutionTime : ℤ
  aReserve : ℕ
  bReserve : ℕ
  lpSupply : ℕ
  provA : ℕ
  provB : ℕ
  provLp : ℕ
  posLpTokens : ℕ
  posAContrib : ℕ
  posBContrib : ℕ
  poolTotalLiquidity : ℕ
  poolAReserve : ℕ
  poolBReserve : ℕ
  marketTotalLiquidity : ℕ
  lastUpdate : ℤ
  deriving DecidableEq

/-- LP tokens to mint (`add_liquidity.rs` lines 127-158).  Empty pool:
`(a * b as f64).sqrt() as u64`, floored to the 1000 minimum.  Otherwise
`min(a * supply / reserve_a, b * supply / reserve_b)` in `u128`, each
quotient narrowed by a plain `as u64` cast (truncation mod `2^64`);
`checked_div` on a zero reserve surfaces `MathOverflow`. -/
def lpTokensToMint (a b aRes bRes supply : ℕ) : Except Err ℕ := do
  if supply = 0 then do
    let initial ← okOr (chkMul128 a b) Err.mathOverflow
    let lp0 := f64SqrtTrunc initial
    pure (if lp0 < 1000 then 1000 else lp0)
  else do
    let na ← okOr (chkMul128 a supply) Err.mathOverflow
    let qa ← okOr (chkDiv na aRes) Err.mathOverflow
    let nb ← okOr (chkMul128 b supply) Err.mathOverflow
    let qb ← okOr (chkDiv nb bRes) Err.mathOverflow
    pure (min (qa % u64Mod) (qb % u64Mod))

/-- `add_liquidity` (`add_liquidity.rs`).  Constraint: market Active.
Handler: positive amounts (`InvalidAmount`), deadline not passed
(`MarketExpired`), LP mint computation, slippage guard
(`SlippageExceeded`), the two deposits (both consumed in full), the LP
mint, and the checked counter updates. -/
def addLiquidityI (s : LqState) (a b minLp : ℕ) (now : ℤ) : Except Err LqState := do
  if s.marketStatus ≠ MarketStatus.active then throw Err.marketNotActive
  if ¬ 0 < a then throw Err.invalidAmount
  if ¬ 0 < b then throw Err.invalidAmount
  if ¬ now < s.resolutionTime then throw Err.marketExpired
  let mint ← lpTokensToMint a b s.aReserve s.bReserve s.lpSupply
  if mint < minLp then throw Err.slippageExceeded
  if s.provA < a then throw Err.transferFailed
  if s.provB < b then throw Err.transferFailed
  if ¬ s.lpSupply + mint < u64Mod then throw Err.transferFailed
  let posLp ← okOr (chkAdd64 s.posLpTokens mint) Err.mathOverflow
  let posA ← okOr (chkAdd64 s.posAContrib a) Err.mathOverflow
  let posB ← okOr (chkAdd64 s.posBContrib b) Err.mathOverflow
  let poolTot ← okOr (chkAdd64 s.poolTotalLiquidity mint) Err.mathOverflow
  let poolA ← okOr (chkAdd64 s.poolAReserve a) Err.mathOverflow
  let poolB ← okOr (chkAdd64 s.poolBReserve b) Err.mathOverflow
  let ab ← okOr (chkAdd64 a b) Err.mathOverflow
  let mTot ← okOr (chkAdd64 s.marketTotalLiquidity ab) Err.mathOverflow
  pure { marketStatus := s.marketStatus
         resolutionTime := s.resolutionTime
         aReserve := s.aReserve + a
         bReserve := s.bReserve + b
         lpSupply := s.lpSupply + mint
         provA := s.provA - a
         provB := s.provB - b
         provLp := s.provLp + mint
         posLpTokens := posLp
         posAContrib := posA
         posBContrib := posB
         poolTotalLiquidity := poolTot
         poolAReserve := poolA
         poolBReserve := poolB
         marketTotalLiquidity := mTot
         lastUpdate := now }

/-- Pool state exercising the wrapping `as u64` narrowing: reserves
`(1, 2^32)`, LP supply `2^40`, ample provider balances. -/
def lqWrap : LqState :=
  { marketStatus := MarketStatus.active, resolutionTime := 100, aReserve := 1,
    bReserve := 4294967296, lpSupply := 1099511627776, provA := 8589934592,
    provB := 8589934592, provLp := 0, posLpTokens := 0, posAContrib := 0,
    posBContrib := 0, poolTotalLiquidity := 0, poolAReserve := 1,
    poolBReserve := 4294967296, marketTotalLiquidity := 0, lastUpdate := 0 }

/-- C6 counterexample: two independent divergences from the claimed
mint formula.  (1) Empty pool: deposits `(2^27 - 1, 2^27 + 1)` have the
product `2^54 - 1 = 18014398509481983`, which the `as f64` conversion
rounds up to `2^54`; the double square root is then exactly
`2^27 = 134217728`, one more than the claimed
`max(1000, floor(sqrt(amount_A * amount_B))) = 134217727`.
(2) Nonempty pool: with reserves `(1, 2^32)` and LP supply `2^40`,
deposits `(2^32, 2^32)` give `lp_from_a = 2^32 * 2^40 / 1 = 2^72`,
which the plain `as u64` cast (`add_liquidity.rs` lines 148 and 154)
wraps to `0`; the code mints `min(0, 2^40) = 0` — the call succeeds
and the provider receives zero LP tokens for the deposit — while the
claimed formula gives `min(2^72, 2^40) = 2^40 = 1099511627776`. -/
theorem empty_pool_mint_f64_cex :
    lpTokensToMint 134217727 134217729 0 0 0 = Except.ok 134217728 ∧
    max 1000 (Nat.sqrt (134217727 * 134217729)) = 134217727 ∧
    (134217728 : ℕ) ≠ 134217727 ∧
    lpTokensToMint 4294967296 4294967296 1 4294967296 1099511627776 = Except.ok 0 ∧
    min (4294967296 * 1099511627776 / 1) (4294967296 * 1099511627776 / 4294967296)
      = 1099511627776 ∧
    (addLiquidityI lqWrap 4294967296 4294967296 0 50).map LqState.provLp
      = Except.ok 0 ∧
    (0 : ℕ) ≠ 1099511627776 := by
  have hprod : (134217727 : ℕ) * 134217729 = 18014398509481983 := by norm_num
  refine ⟨?_, ?_, by decide, by decide, by norm_num, by decide, by decide⟩
  · have hfs : f64SqrtTrunc 18014398509481983 = 134217728 := by
      have hround : roundF64 18014398509481983 = 18014398509481984 := by decide
      have hlog : logTwoF 256 18014398509481984 = 54 := by decide
      have hv : (18014398509481984 : ℕ) * 4 ^ (52 - 54 / 2) = 2 ^ 52 * 2 ^ 52 := by
        norm_num
      rw [f64SqrtTrunc, hround, f64SqrtPosTrunc, hlog, if_pos (by norm_num), hv,
        sqrtRound_sq]
      norm_num
    simp [lpTokensToMint, okOr, chkMul128, hprod, u128Mod, hfs,
      Bind.bind, Except.bind, Pure.pure, Except.pure]
  · have hsq : Nat.sqrt 18014398509481983 = 134217727 := by
      have h1 : (18014398509481983 : ℕ) = 134217727 * 134217727 + 268435454 := by
        norm_num
      have h2 : (268435454 : ℕ) ≤ 134217727 + 134217727 := by norm_num
      rw [h1, Nat.sqrt_add_eq _ h2]
    rw [hprod, hsq]
    norm_num

/-- C6 amended: for every `add_liquidity` call that passes validation
(Active unexpired market, both amounts positive, and — for a nonempty
pool — nonzero reserves, without which the checked divisions abort with
`MathOverflow`): when `total_lp_supply == 0` the minted LP amount is
`max(1000, t)` where `t` is the truncated IEEE-754 double square root
of `amount_A * amount_B` (which exceeds `floor(sqrt(...))` at some
inputs); when `total_lp_supply > 0` it is
`min(amount_A * supply / reserve_A mod 2^64,
amount_B * supply / reserve_B mod 2^64)` — each `u128` quotient is
narrowed by a plain wrapping `as u64` cast, so an oversized quotient
wraps instead of failing; and whenever the computed mint is below
`min_lp_out` the call fails with `SlippageExceeded`.  Both deviations
from the claimed formula are exhibited in `empty_pool_mint_f64_cex`. -/
theorem addLiquidityI_mint_amended (s : LqState) (a b minLp : ℕ) (now : ℤ)
    (hact : s.marketStatus = MarketStatus.active)
    (ha : 0 < a) (hb : 0 < b)
    (htime : now < s.resolutionTime)
    (ha64 : a < u64Mod) (hb64 : b < u64Mod) (hs64 : s.lpSupply < u64Mod)
    (hres0 : s.lpSupply ≠ 0 → 0 < s.aReserve ∧ 0 < s.bReserve) :
    lpTokensToMint a b s.aReserve s.bReserve s.lpSupply = Except.ok
      (if s.lpSupply = 0 then max 1000 (f64SqrtTrunc (a * b))
       else min (a * s.lpSupply / s.aReserve % u64Mod)
         (b * s.lpSupply / s.bReserve % u64Mod)) ∧
    ((if s.lpSupply = 0 then max 1000 (f64SqrtTrunc (a * b))
       else min (a * s.lpSupply / s.aReserve % u64Mod)
         (b * s.lpSupply / s.bReserve % u64Mod)) < minLp →
      addLiquidityI s a b minLp now = Except.error Err.slippageExceeded) := by
  have hmm : u64Mod * u64Mod = u128Mod := by norm_num [u64Mod, u128Mod]
  have hmain : lpTokensToMint a b s.aReserve s.bReserve s.lpSupply = Except.ok
      (if s.lpSupply = 0 then max 1000 (f64SqrtTrunc (a * b))
       else min (a * s.lpSupply / s.aReserve % u64Mod)
         (b * s.lpSupply / s.bReserve % u64Mod)) := by
    by_cases hsup : s.lpSupply = 0
    · have hab : a * b < u128Mod := by
        rw [← hmm]
        exact mul_lt_mul'' ha64 hb64 (Nat.zero_le a) (Nat.zero_le b)
      have hmax : (if f64SqrtTrunc (a * b) < 1000 then 1000 else f64SqrtTrunc (a * b))
          = max 1000 (f64SqrtTrunc (a * b)) := by
        split <;> omega
      simp [lpTokensToMint, hsup, okOr, chkMul128, hab, hmax,
        Bind.bind, Except.bind, Pure.pure, Except.pure]
    · obtain ⟨hra, hrb⟩ := hres0 hsup
      have h1 : a * s.lpSupply < u128Mod := by
        rw [← hmm]
        exact mul_lt_mul'' ha64 hs64 (Nat.zero_le a) (Nat.zero_le _)
      have h2 : b * s.lpSupply < u128Mod := by
        rw [← hmm]
        exact mul_lt_mul'' hb64 hs64 (Nat.zero_le b) (Nat.zero_le _)
      simp [lpTokensToMint, hsup, okOr, chkMul128, chkDiv, h1, h2, hra.ne', hrb.ne',
        Bind.bind, Except.bind, Pure.pure, Except.pure]
  refine ⟨hmain, fun hlt => ?_⟩
  simp [addLiquidityI, hact, ha, hb, htime, hmain, hlt,
    Bind.bind, Except.bind, Pure.pure, Except.pure]

/-- The empty pool (and positive balances) of the Scenario-3 sequence. -/
def lqScn3a : LqState :=
  { marketStatus := MarketStatus.active, resolutionTime := 100, aReserve := 0,
    bReserve := 0, lpSupply := 0, provA := 100000, provB := 100000, provLp := 0,
    posLpTokens := 0, posAContrib := 0, posBContrib := 0, poolTotalLiquidity := 0,
    poolAReserve := 0, poolBReserve := 0, marketTotalLiquidity := 0, lastUpdate := 0 }

/-- The Scenario-3 pool after the first deposit: reserves 10000/10000,
LP supply 10000. -/
def lqScn3b : LqState :=
  { lqScn3a with
    aReserve := 10000
    bReserve := 10000
    lpSupply := 10000 }

/-- Witness for `addLiquidityI_mint_amended`, Scenario 3 of the spec:
the empty pool mints `floor(sqrt(10000 * 10000)) = 10000` (here the
double arithmetic is exact), and the follow-up `(5000, 5000)` deposit
mints `min(5000 * 10000 / 10000, 5000 * 10000 / 10000) = 5000` (both
quotients far below `2^64`, so the `as u64` narrowing is the
identity). -/
theorem addLiquidityI_mint_amended_witness :
    lpTokensToMint 10000 10000 0 0 0 = Except.ok 10000 ∧
    lpTokensToMint 5000 5000 10000 10000 10000 = Except.ok 5000 := by
  have hfs : f64SqrtTrunc (10000 * 10000) = 10000 := by
    have hround : roundF64 100000000 = 100000000 := by decide
    have hlog : logTwoF 256 100000000 = 26 := by decide
    have hv : (100000000 : ℕ) * 4 ^ (52 - 26 / 2) = 5497558138880000 * 5497558138880000 := by
      norm_num
    have : f64SqrtTrunc 100000000 = 10000 := by
      rw [f64SqrtTrunc, hround, f64SqrtPosTrunc, hlog, if_pos (by norm_num), hv,
        sqrtRound_sq]
      norm_num
    simpa using this
  have h1 := (addLiquidityI_mint_amended lqScn3a 10000 10000 0 50 rfl (by norm_num)
    (by norm_num) (by norm_num [lqScn3a]) (by norm_num [u64Mod]) (by norm_num [u64Mod])
    (by norm_num [lqScn3a, u64Mod]) (fun h => absurd rfl h)).1
  have h2 := (addLiquidityI_mint_amended lqScn3b 5000 5000 0 50 rfl (by norm_num)
    (by norm_num) (by norm_num [lqScn3b, lqScn3a]) (by norm_num [u64Mod])
    (by norm_num [u64Mod]) (by norm_num [lqScn3b, lqScn3a, u64Mod])
    (fun _ => ⟨by norm_num [lqScn3b, lqScn3a], by norm_num [lqScn3b, lqScn3a]⟩)).1
  constructor
  · simpa [lqScn3a, hfs] using h1
  · simpa [lqScn3b, lqScn3a, u64Mod] using h2

/-! ## `remove_liquidity` (`remove_liquidity.rs`) -/

/-- State touched by `remove_liquidity`: market status and liquidity
counter, the pool record (`total_lp_tokens`, `total_liquidity`,
`withdrawal_fee_bps`, `total_fees_collected`, `active_providers`), the
pool token-account balance, the provider position and the provider
balances. -/
structure RmState where
  marketStatus : MarketStatus
  marketTotalLiquidity : ℕ
  totalLpTokens : ℕ
  poolTotalLiquidity : ℕ
  withdrawalFeeBps : ℕ
  totalFeesCollected : ℕ
  activeProviders : ℕ
  poolBalance : ℕ
  posLpTokens : ℕ
  posBaseAmount : ℕ
  posIsActive : Bool
  lastInteraction : ℤ
  providerBalance : ℕ
  providerLp : ℕ
  deriving DecidableEq

/-- `remove_liquidity` (`remove_liquidity.rs` lines 75-227): requires
market Active or Resolved, a positive burn amount within the position,
a nonempty pool; computes the proportional
`withdrawal = pool_balance * lp / total_lp_supply` in `u128` (narrowed
`as u64`), rejects a zero withdrawal (`InvalidAmount`) and one beyond
the pool balance; deducts `withdrawal * withdrawal_fee_bps / 10000`
only while the market is Active, transfers the net amount, burns the LP
tokens and updates every counter with checked arithmetic, closing the
position when its LP balance reaches zero. -/
def removeLiquidityI (s : RmState) (lp : ℕ) (now : ℤ) : Except Err RmState := do
  if ¬ (s.marketStatus = MarketStatus.active ∨ s.marketStatus = MarketStatus.resolved) then
    throw Err.marketNotActive
  if ¬ 0 < lp then throw Err.invalidAmount
  if ¬ lp ≤ s.posLpTokens then throw Err.insufficientLpTokens
  if ¬ 0 < s.totalLpTokens then throw Err.emptyPool
  let withdrawal := s.poolBalance * lp / s.totalLpTokens % u64Mod
  if ¬ 0 < withdrawal then throw Err.invalidAmount
  if ¬ withdrawal ≤ s.poolBalance then throw Err.insufficientPoolBalance
  let fee ←
    if s.marketStatus = MarketStatus.active then
      okOr (chkMul64 withdrawal s.withdrawalFeeBps) Err.mathOverflow
    else pure 0
  let feeAmount := if s.marketStatus = MarketStatus.active then fee / 10000 else 0
  let net ← okOr (chkSub withdrawal feeAmount) Err.mathOverflow
  if s.providerLp < lp then throw Err.transferFailed
  let posLp ← okOr (chkSub s.posLpTokens lp) Err.mathOverflow
  let posBase ← okOr (chkSub s.posBaseAmount withdrawal) Err.mathOverflow
  let poolTot ← okOr (chkSub s.poolTotalLiquidity withdrawal) Err.mathOverflow
  let lpTot ← okOr (chkSub s.totalLpTokens lp) Err.mathOverflow
  let fees ←
    if 0 < feeAmount then okOr (chkAdd64 s.totalFeesCollected feeAmount) Err.mathOverflow
    else pure s.totalFeesCollected
  let mTot ← okOr (chkSub s.marketTotalLiquidity withdrawal) Err.mathOverflow
  let closing := posLp = 0
  let actives ←
    if closing then okOr (chkSub s.activeProviders 1) Err.mathOverflow
    else pure s.activeProviders
  pure { marketStatus := s.marketStatus
         marketTotalLiquidity := mTot
         totalLpTokens := lpTot
         poolTotalLiquidity := poolTot
         withdrawalFeeBps := s.withdrawalFeeBps
         totalFeesCollected := fees
         activeProviders := actives
         poolBalance := s.poolBalance - net
         posLpTokens := posLp
         posBaseAmount := posBase
         posIsActive := if closing then false else s.posIsActive
         lastInteraction := now
         providerBalance := s.providerBalance + net
         providerLp := s.providerLp - lp }

/-- A Resolved pool witnessing the C7 counterexample: LP supply `4`,
pool balance `1`, position holding `2` LP tokens. -/
def rmZero : RmState :=
  { marketStatus := MarketStatus.resolved, marketTotalLiquidity := 100,
    totalLpTokens := 4, poolTotalLiquidity := 100, withdrawalFeeBps := 30,
    totalFeesCollected := 0, activeProviders := 1, poolBalance := 1,
    posLpTokens := 2, posBaseAmount := 10, posIsActive := true, lastInteraction := 0,
    providerBalance := 0, providerLp := 2 }

/-- C7 counterexample: with `0 < lp_amount = 2 ≤` the position balance
and `total_lp_supply = 4 > 0` on a Resolved market, the proportional
amount is `1 * 2 / 4 = 0`, and the call fails with `InvalidAmount`
instead of paying out the full proportional amount (zero). -/
theorem remove_liquidity_zero_withdrawal_cex :
    0 < 2 ∧ 2 ≤ rmZero.posLpTokens ∧ 0 < rmZero.totalLpTokens ∧
    rmZero.poolBalance * 2 / rmZero.totalLpTokens = 0 ∧
    removeLiquidityI rmZero 2 50 = Except.error Err.invalidAmount := by
  exact ⟨by decide, by decide, by decide, by decide, by decide⟩

/-- C7 amended: for every `remove_liquidity(lp_amount)` call with
`0 < lp_amount ≤` the caller position `≤ total_lp_supply` on an Active
or Resolved market, whose proportional amount
`W = pool_balance * lp_amount / total_lp_supply` is positive (a zero
`W` is rejected with `InvalidAmount`, see
`remove_liquidity_zero_withdrawal_cex`): the call succeeds, pays out
`W` minus the fee `W * withdrawal_fee_bps / 10000` — charged only while
the market is Active and credited to `total_fees_collected`; on a
Resolved market the fee is zero and the full `W` is paid.  The
remaining hypotheses bound the checked counter arithmetic. -/
theorem removeLiquidityI_proportional (s : RmState) (lp : ℕ) (now : ℤ)
    (hst : s.marketStatus = MarketStatus.active ∨ s.marketStatus = MarketStatus.resolved)
    (hlp : 0 < lp) (hpos : lp ≤ s.posLpTokens) (hsup : 0 < s.totalLpTokens)
    (hle : lp ≤ s.totalLpTokens)
    (hb64 : s.poolBalance < u64Mod)
    (hw : 0 < s.poolBalance * lp / s.totalLpTokens)
    (hfeemul : s.poolBalance * lp / s.totalLpTokens * s.withdrawalFeeBps < u64Mod)
    (hfrate : s.withdrawalFeeBps ≤ 10000)
    (hburn : lp ≤ s.providerLp)
    (hbase : s.poolBalance * lp / s.totalLpTokens ≤ s.posBaseAmount)
    (hpool : s.poolBalance * lp / s.totalLpTokens ≤ s.poolTotalLiquidity)
    (hmkt : s.poolBalance * lp / s.totalLpTokens ≤ s.marketTotalLiquidity)
    (hfees : s.totalFeesCollected
        + s.poolBalance * lp / s.totalLpTokens * s.withdrawalFeeBps / 10000 < u64Mod)
    (hprov : 0 < s.activeProviders) :
    removeLiquidityI s lp now = Except.ok
      { marketStatus := s.marketStatus
        marketTotalLiquidity :=
          s.marketTotalLiquidity - s.poolBalance * lp / s.totalLpTokens
        totalLpTokens := s.totalLpTokens - lp
        poolTotalLiquidity :=
          s.poolTotalLiquidity - s.poolBalance * lp / s.totalLpTokens
        withdrawalFeeBps := s.withdrawalFeeBps
        totalFeesCollected := s.totalFeesCollected +
          (if s.marketStatus = MarketStatus.active then
            s.poolBalance * lp / s.totalLpTokens * s.withdrawalFeeBps / 10000
           else 0)
        activeProviders :=
          if s.posLpTokens - lp = 0 then s.activeProviders - 1 else s.activeProviders
        poolBalance := s.poolBalance - (s.poolBalance * lp / s.totalLpTokens -
          (if s.marketStatus = MarketStatus.active then
            s.poolBalance * lp / s.totalLpTokens * s.withdrawalFeeBps / 10000
           else 0))
        posLpTokens := s.posLpTokens - lp
        posBaseAmount := s.posBaseAmount - s.poolBalance * lp / s.totalLpTokens
        posIsActive := if s.posLpTokens - lp = 0 then false else s.posIsActive
        lastInteraction := now
        providerBalance := s.providerBalance + (s.poolBalance * lp / s.totalLpTokens -
          (if s.marketStatus = MarketStatus.active then
            s.poolBalance * lp / s.totalLpTokens * s.withdrawalFeeBps / 10000
           else 0))
        providerLp := s.providerLp - lp } := by
  have hwle : s.poolBalance * lp / s.totalLpTokens ≤ s.poolBalance := by
    have h1 : s.poolBalance * lp ≤ s.poolBalance * s.totalLpTokens :=
      Nat.mul_le_mul_left _ hle
    have h2 : s.poolBalance * lp / s.totalLpTokens
        ≤ s.poolBalance * s.totalLpTokens / s.totalLpTokens :=
      Nat.div_le_div_right h1
    rwa [Nat.mul_div_cancel _ hsup] at h2
  have hmod : s.poolBalance * lp / s.totalLpTokens % u64Mod
      = s.poolBalance * lp / s.totalLpTokens :=
    Nat.mod_eq_of_lt (lt_of_le_of_lt hwle hb64)
  have hfle : s.poolBalance * lp / s.totalLpTokens * s.withdrawalFeeBps / 10000
      ≤ s.poolBalance * lp / s.totalLpTokens := by
    calc s.poolBalance * lp / s.totalLpTokens * s.withdrawalFeeBps / 10000
        ≤ s.poolBalance * lp / s.totalLpTokens * 10000 / 10000 :=
          Nat.div_le_div_right (Nat.mul_le_mul_left _ hfrate)
      _ = s.poolBalance * lp / s.totalLpTokens := by omega
  have hnb : ¬ s.providerLp < lp := Nat.not_lt.mpr hburn
  have hprov1 : 1 ≤ s.activeProviders := hprov
  rcases hst with hst | hst
  all_goals by_cases hclose : s.posLpTokens - lp = 0
  all_goals
    simp [removeLiquidityI, hst, hlp, hpos, hsup, hle, hmod, hw, hwle, hfeemul, hfrate,
      hnb, hbase, hpool, hmkt, hfees, hprov, hprov1, hfle, hclose, okOr, chkMul64, chkSub,
      chkAdd64, Bind.bind, Except.bind, Pure.pure, Except.pure]

/-- An Active pool for the `removeLiquidityI_proportional` witness:
supply 10, balance 1000, fee 30 bps, position of 10 LP tokens. -/
def rmWitA : RmState :=
  { marketStatus := MarketStatus.active, marketTotalLiquidity := 1000,
    totalLpTokens := 10, poolTotalLiquidity := 1000, withdrawalFeeBps := 30,
    totalFeesCollected := 7, activeProviders := 2, poolBalance := 1000,
    posLpTokens := 10, posBaseAmount := 600, posIsActive := true, lastInteraction := 0,
    providerBalance := 0, providerLp := 5 }

/-- A Resolved pool for the `removeLiquidityI_proportional` witness. -/
def rmWitB : RmState :=
  { rmWitA with
    marketStatus := MarketStatus.resolved
    posBaseAmount := 1000
    providerLp := 10 }

/-- Witness for `removeLiquidityI_proportional`: on the Active pool,
burning 5 of 10 LP tokens withdraws `1000 * 5 / 10 = 500`, pays
`500 - 1` after the 30-bps fee `1`, and credits the fee; on the
Resolved pool, burning all 10 LP tokens pays the full `1000` with no
fee and closes the position. -/
theorem removeLiquidityI_proportional_witness :
    removeLiquidityI rmWitA 5 50 = Except.ok
      { marketStatus := MarketStatus.active, marketTotalLiquidity := 500,
        totalLpTokens := 5, poolTotalLiquidity := 500, withdrawalFeeBps := 30,
        totalFeesCollected := 8, activeProviders := 2, poolBalance := 501,
        posLpTokens := 5, posBaseAmount := 100, posIsActive := true,
        lastInteraction := 50, providerBalance := 499, providerLp := 0 } ∧
    removeLiquidityI rmWitB 10 60 = Except.ok
      { marketStatus := MarketStatus.resolved, marketTotalLiquidity := 0,
        totalLpTokens := 0, poolTotalLiquidity := 0, withdrawalFeeBps := 30,
        totalFeesCollected := 7, activeProviders := 1, poolBalance := 0,
        posLpTokens := 0, posBaseAmount := 0, posIsActive := false,
        lastInteraction := 60, providerBalance := 1000, providerLp := 0 } := by
  constructor
  · have h := removeLiquidityI_proportional rmWitA 5 50 (Or.inl rfl) (by norm_num)
      (by norm_num [rmWitA]) (by norm_num [rmWitA]) (by norm_num [rmWitA])
      (by norm_num [rmWitA, u64Mod]) (by norm_num [rmWitA]) (by norm_num [rmWitA, u64Mod])
      (by norm_num [rmWitA]) (by norm_num [rmWitA]) (by norm_num [rmWitA])
      (by norm_num [rmWitA]) (by norm_num [rmWitA]) (by norm_num [rmWitA, u64Mod])
      (by norm_num [rmWitA])
    simpa [rmWitA] using h
  · have h := removeLiquidityI_proportional rmWitB 10 60 (Or.inr rfl) (by norm_num)
      (by norm_num [rmWitB, rmWitA]) (by norm_num [rmWitB, rmWitA])
      (by norm_num [rmWitB, rmWitA]) (by norm_num [rmWitB, rmWitA, u64Mod])
      (by norm_num [rmWitB, rmWitA]) (by norm_num [rmWitB, rmWitA, u64Mod])
      (by norm_num [rmWitB, rmWitA]) (by norm_num [rmWitB, rmWitA])
      (by norm_num [rmWitB, rmWitA]) (by norm_num [rmWitB, rmWitA])
      (by norm_num [rmWitB, rmWitA]) (by norm_num [rmWitB, rmWitA, u64Mod])
      (by norm_num [rmWitB, rmWitA])
    simpa [rmWitB, rmWitA] using h

/-! ## `place_bet` (`instructions/place_bet.rs`)

The market here is the multi-outcome variant: each outcome entry keeps
`total_amount`, `bet_count` and `current_odds`; the bet account keeps a
per-outcome `(amount, odds_at_bet)` vector.  The two odds figures are
computed in `f64` by the source and embedded through `f64DivMul10000`. -/

/-- One `market.outcomes[i]` entry as used by `place_bet`. -/
structure MOutcomeP where
  totalAmount : ℕ
  betCount : ℕ
  currentOdds : ℕ
  deriving DecidableEq

/-- The market fields `place_bet` reads and writes. -/
structure MarketP where
  key : ℕ
  status : MarketStatus
  endTime : ℤ
  minBetAmount : ℕ
  maxBetAmount : ℕ
  maxPayoutPerBet : ℕ
  outcomes : List MOutcomeP
  totalVolume : ℕ
  totalBets : ℕ
  lastBetTime : ℤ
  deriving DecidableEq

/-- One `bet.outcomes[i]` entry (`BetOutcome`), zero-initialised. -/
structure BetOutcomeP where
  amount : ℕ
  oddsAtBet : ℕ
  deriving DecidableEq

/-- The bet account of `place_bet` (`init_if_needed`: a fresh account is
zeroed, recognised by `bettor == Pubkey::default()`). -/
structure BetP where
  bettor : ℕ
  market : ℕ
  createdAt : ℤ
  outcomes : List BetOutcomeP
  totalAmount : ℕ
  lastBetAt : ℤ
  deriving DecidableEq

/-- The sum of `total_amount` over the outcomes of a list. -/
def sumAmounts (l : List MOutcomeP) : ℕ := (l.map MOutcomeP.totalAmount).sum

/-- The opposing pool for outcome `i`: the `total_amount` sum over every
other outcome (`place_bet.rs` lines 74-79). -/
def opposingPool (l : List MOutcomeP) (i : ℕ) : ℕ :=
  sumAmounts l - (l.getD i ⟨0, 0, 0⟩).totalAmount

/-- The recorded `odds_at_bet` (`place_bet.rs` lines 121-125):
`((total + opposing) as f64 / opposing as f64 * 10000.0) as u64` when
the opposing pool is nonzero, else the fixed `20000`. -/
def oddsAtBetF64 (total opposing : ℕ) : ℕ :=
  if 0 < opposing then f64DivMul10000 (total + opposing) opposing else 20000

/-- The recomputed `current_odds` of one outcome against the
post-update market pool (`place_bet.rs` lines 158-164):
`(total_market_pool as f64 / outcome_total as f64 * 10000.0) as u64`
when the pool strictly exceeds the outcome total (this divides by zero
in `f64`, saturating to `u64::MAX`, when the outcome total is zero),
else the fixed `10000`. -/
def currentOddsF64 (pool outcomeTotal : ℕ) : ℕ :=
  if outcomeTotal < pool then f64DivMul10000 pool outcomeTotal else 10000

/-- `place_bet` (`instructions/place_bet.rs`).  Anchor constraints:
market Active (`MarketNotActive`), clock before `end_time`
(`MarketExpired`), outcome index in range (`InvalidOutcome`).  Handler:
positive amount (`InvalidBetAmount`), market bet bounds, the
potential-payout cap (`PayoutTooHigh`), the stake transfer, bet
initialisation/update — overwriting `odds_at_bet` for the outcome —
and the market counter and odds updates. -/
def placeBetP (m : MarketP) (bet : Option BetP) (caller : ℕ) (outcome amount : ℕ)
    (now : ℤ) (bettorBalance vault : ℕ) :
    Except Err (MarketP × BetP × ℕ × ℕ) := do
  if m.status ≠ MarketStatus.active then throw Err.marketNotActive
  if ¬ now < m.endTime then throw Err.marketExpired
  if ¬ outcome < m.outcomes.length then throw Err.invalidOutcome
  if ¬ 0 < amount then throw Err.invalidBetAmount
  if ¬ m.minBetAmount ≤ amount then throw Err.betAmountTooLow
  if ¬ amount ≤ m.maxBetAmount then throw Err.betAmountTooHigh
  let totalPool := (m.outcomes.getD outcome ⟨0, 0, 0⟩).totalAmount
  let opposing := opposingPool m.outcomes outcome
  let payout ←
    if 0 < opposing then do
      let p ← okOr (chkMul64 amount (totalPool + opposing)) Err.mathOverflow
      okOr (chkDiv p opposing) Err.mathOverflow
    else okOr (chkMul64 amount 2) Err.mathOverflow
  if ¬ payout ≤ m.maxPayoutPerBet then throw Err.payoutTooHigh
  if bettorBalance < amount then throw Err.transferFailed
  let bet0 := bet.getD ⟨0, 0, 0, [], 0, 0⟩
  let bet1 :=
    if bet0.bettor = 0 then
      { bettor := caller, market := m.key, createdAt := now,
        outcomes := List.replicate m.outcomes.length ⟨0, 0⟩,
        totalAmount := bet0.totalAmount, lastBetAt := bet0.lastBetAt }
    else bet0
  let oldBo := bet1.outcomes.getD outcome ⟨0, 0⟩
  let newAmt ← okOr (chkAdd64 oldBo.amount amount) Err.mathOverflow
  let bet2 := { bet1 with
    outcomes := bet1.outcomes.set outcome
      { amount := newAmt, oddsAtBet := oddsAtBetF64 totalPool opposing } }
  let betTot ← okOr (chkAdd64 bet2.totalAmount amount) Err.mathOverflow
  let bet3 := { bet2 with totalAmount := betTot, lastBetAt := now }
  let mo := m.outcomes.getD outcome ⟨0, 0, 0⟩
  let moAmt ← okOr (chkAdd64 mo.totalAmount amount) Err.mathOverflow
  let moCnt ← okOr (chkAdd64 mo.betCount 1) Err.mathOverflow
  let outcomes1 := m.outcomes.set outcome { mo with totalAmount := moAmt, betCount := moCnt }
  let vol ← okOr (chkAdd64 m.totalVolume amount) Err.mathOverflow
  let cnt ← okOr (chkAdd64 m.totalBets 1) Err.mathOverflow
  let pool := sumAmounts outcomes1
  let outcomes2 := outcomes1.map fun o =>
    { o with currentOdds := currentOddsF64 pool o.totalAmount }
  pure ({ m with
      outcomes := outcomes2
      totalVolume := vol
      totalBets := cnt
      lastBetTime := now },
    bet3, bettorBalance - amount, vault + amount)

/-- A fresh two-outcome market for the `place_bet` sequences. -/
def pbM0 : MarketP :=
  { key := 9, status := MarketStatus.active, endTime := 1000, minBetAmount := 1,
    maxBetAmount := 1000000, maxPayoutPerBet := 1000000000,
    outcomes := [⟨0, 0, 0⟩, ⟨0, 0, 0⟩], totalVolume := 0, totalBets := 0,
    lastBetTime := 0 }

/-- `pbM0` after bettor 21 stakes 100 on outcome 0 (time 100). -/
def pbM1 : MarketP :=
  { pbM0 with
    outcomes := [⟨100, 1, 10000⟩, ⟨0, 0, u64Max⟩]
    totalVolume := 100
    totalBets := 1
    lastBetTime := 100 }

/-- The bet account of bettor 21 after the first stake: `odds_at_bet`
recorded as the no-opposition constant `20000`. -/
def pbBetA1 : BetP :=
  { bettor := 21, market := 9, createdAt := 100, outcomes := [⟨100, 20000⟩, ⟨0, 0⟩],
    totalAmount := 100, lastBetAt := 100 }

/-- `pbM1` after bettor 22 stakes 200 on outcome 1 (time 101). -/
def pbM2 : MarketP :=
  { pbM0 with
    outcomes := [⟨100, 1, 30000⟩, ⟨200, 1, 15000⟩]
    totalVolume := 300
    totalBets := 2
    lastBetTime := 101 }

/-- The bet account of bettor 22. -/
def pbBetB : BetP :=
  { bettor := 22, market := 9, createdAt := 101, outcomes := [⟨0, 0⟩, ⟨200, 10000⟩],
    totalAmount := 200, lastBetAt := 101 }

/-- `pbM2` after bettor 21 stakes another 100 on outcome 0 (time 102). -/
def pbM3 : MarketP :=
  { pbM0 with
    outcomes := [⟨200, 2, 20000⟩, ⟨200, 1, 20000⟩]
    totalVolume := 400
    totalBets := 3
    lastBetTime := 102 }

/-- The bet account of bettor 21 after the second stake on the same
outcome: `odds_at_bet` has been overwritten with `15000`. -/
def pbBetA3 : BetP :=
  { pbBetA1 with
    outcomes := [⟨200, 15000⟩, ⟨0, 0⟩]
    totalAmount := 200
    lastBetAt := 102 }

/-- C8 counterexample: bettor 21 bets 100 on outcome 0 of an empty
market (`odds_at_bet = 20000` recorded), bettor 22 bets 200 on outcome
1, and bettor 21 bets 100 on outcome 0 again — the second call
overwrites the recorded `odds_at_bet` for that outcome from `20000` to
`(100 + 200) / 200 * 10000 = 15000` (exact in double precision), so the
recorded value is not immutable. -/
theorem odds_at_bet_overwritten_cex :
    placeBetP pbM0 none 21 0 100 100 1000 0 = Except.ok (pbM1, pbBetA1, 900, 100) ∧
    placeBetP pbM1 none 22 1 200 101 1000 100 = Except.ok (pbM2, pbBetB, 800, 300) ∧
    placeBetP pbM2 (some pbBetA1) 21 0 100 102 900 300 =
      Except.ok (pbM3, pbBetA3, 800, 400) ∧
    (pbBetA1.outcomes.getD 0 ⟨0, 0⟩).oddsAtBet = 20000 ∧
    (pbBetA3.outcomes.getD 0 ⟨0, 0⟩).oddsAtBet = 15000 ∧
    (20000 : ℕ) ≠ 15000 := by
  exact ⟨by decide, by decide, by decide, by decide, by decide, by decide⟩

/-- C8 amended: `odds_at_bet` is NOT immutable — every further
`place_bet` on an existing bet account overwrites the chosen outcome's
`odds_at_bet` with the odds computed from the pools as they stand at
that bet (while accumulating the staked amount).  Stated for a
subsequent bet by the same bettor (`b.bettor ≠ 0`, so the
`init_if_needed` branch does not reset the account); the hypotheses are
the validation and checked-arithmetic conditions of a successful call. -/
theorem placeBetP_overwrites_odds (m : MarketP) (b : BetP)
    (caller outcome amount : ℕ) (now : ℤ) (bb vault : ℕ)
    (hact : m.status = MarketStatus.active)
    (htime : now < m.endTime)
    (hout : outcome < m.outcomes.length)
    (hamt : 0 < amount)
    (hmin : m.minBetAmount ≤ amount)
    (hmax : amount ≤ m.maxBetAmount)
    (hbnz : b.bettor ≠ 0)
    (hpay : (if 0 < opposingPool m.outcomes outcome then
        amount * ((m.outcomes.getD outcome ⟨0, 0, 0⟩).totalAmount
            + opposingPool m.outcomes outcome) / opposingPool m.outcomes outcome
      else amount * 2) ≤ m.maxPayoutPerBet)
    (hp64a : amount * ((m.outcomes.getD outcome ⟨0, 0, 0⟩).totalAmount
        + opposingPool m.outcomes outcome) < u64Mod)
    (hp64b : amount * 2 < u64Mod)
    (hbal : amount ≤ bb)
    (hadd1 : (b.outcomes.getD outcome ⟨0, 0⟩).amount + amount < u64Mod)
    (hadd2 : b.totalAmount + amount < u64Mod)
    (hadd3 : (m.outcomes.getD outcome ⟨0, 0, 0⟩).totalAmount + amount < u64Mod)
    (hadd4 : (m.outcomes.getD outcome ⟨0, 0, 0⟩).betCount + 1 < u64Mod)
    (hadd5 : m.totalVolume + amount < u64Mod)
    (hadd6 : m.totalBets + 1 < u64Mod) :
    (placeBetP m (some b) caller outcome amount now bb vault).map
        (fun r => r.2.1) = Except.ok
      { b with
        outcomes := b.outcomes.set outcome
          { amount := (b.outcomes.getD outcome ⟨0, 0⟩).amount + amount
            oddsAtBet := oddsAtBetF64 ((m.outcomes.getD outcome ⟨0, 0, 0⟩).totalAmount)
              (opposingPool m.outcomes outcome) }
        totalAmount := b.totalAmount + amount
        lastBetAt := now } := by
  have hnb : ¬ bb < amount := Nat.not_lt.mpr hbal
  simp only [List.getD_eq_getElem?_getD] at hpay hp64a hadd1 hadd3 hadd4 ⊢
  simp only [List.getElem?_eq_getElem hout, Option.getD_some] at hpay hp64a hadd3 hadd4
  by_cases hop : 0 < opposingPool m.outcomes outcome
  · have hpay' : amount * (m.outcomes[outcome].totalAmount
        + opposingPool m.outcomes outcome) / opposingPool m.outcomes outcome
        ≤ m.maxPayoutPerBet := by simpa [hop] using hpay
    simp [placeBetP, hact, htime, hout, hamt, hmin, hmax, hbnz, hop, hpay',
      hp64a, hp64b, hnb, hadd1, hadd2, hadd3, hadd4, hadd5, hadd6, hop.ne',
      okOr, chkAdd64, chkMul64, chkDiv,
      Bind.bind, Except.bind, Pure.pure, Except.pure, Except.map]
  · have hpay' : amount * 2 ≤ m.maxPayoutPerBet := by simpa [hop] using hpay
    simp [placeBetP, hact, htime, hout, hamt, hmin, hmax, hbnz, hop, hpay',
      hp64a, hp64b, hnb, hadd1, hadd2, hadd3, hadd4, hadd5, hadd6,
      okOr, chkAdd64, chkMul64, chkDiv,
      Bind.bind, Except.bind, Pure.pure, Except.pure, Except.map]

/-- Witness for `placeBetP_overwrites_odds` at the third bet of the
counterexample sequence: bettor 21's repeat bet on outcome 0 rewrites
the recorded odds entry to `(100, 20000) ↦ (200, 15000)`. -/
theorem placeBetP_overwrites_odds_witness :
    (placeBetP pbM2 (some pbBetA1) 21 0 100 102 900 300).map
        (fun r => r.2.1) = Except.ok pbBetA3 := by
  have h := placeBetP_overwrites_odds pbM2 pbBetA1 21 0 100 102 900 300
    rfl (by decide) (by decide) (by decide) (by decide) (by decide) (by decide)
    (by decide) (by decide) (by decide) (by decide) (by decide) (by decide)
    (by decide) (by decide) (by decide) (by decide)
  exact h.trans (by decide)

/-- The two-outcome market after resolution, for the C9 counterexample. -/
def pbMRes : MarketP :=
  { pbM0 with status := MarketStatus.resolved }

/-- C9 counterexample: on a Resolved market, `place_bet` with
`amount = 0` fails with `MarketNotActive` — the Anchor account
constraint fires before the handler's amount check — not with
`InvalidBetAmount` as the claim states for every market state. -/
theorem place_bet_zero_amount_cex :
    placeBetP pbMRes none 21 0 0 100 1000 0 = Except.error Err.marketNotActive ∧
    Err.marketNotActive ≠ Err.invalidBetAmount := by
  exact ⟨by decide, by decide⟩

/-- C9 amended: on an Active market before its deadline and with a
valid outcome index, `place_bet` with `amount = 0` fails with
`InvalidBetAmount`; the transaction aborts, so market, bet and all
balances are untouched.  (In other states the call still fails and
changes nothing, but with the state-precondition error of the violated
account constraint instead.) -/
theorem place_bet_zero_amount_fails (m : MarketP) (bet : Option BetP)
    (caller outcome : ℕ) (now : ℤ) (bb vault : ℕ)
    (hact : m.status = MarketStatus.active)
    (htime : now < m.endTime)
    (hout : outcome < m.outcomes.length) :
    placeBetP m bet caller outcome 0 now bb vault = Except.error Err.invalidBetAmount := by
  simp [placeBetP, hact, htime, hout, Bind.bind, Except.bind, Pure.pure, Except.pure]

/-- Witness for `place_bet_zero_amount_fails` on the fresh market. -/
theorem place_bet_zero_amount_fails_witness :
    placeBetP pbM0 none 21 0 0 100 1000 0 = Except.error Err.invalidBetAmount :=
  place_bet_zero_amount_fails pbM0 none 21 0 100 1000 0 rfl (by decide) (by decide)

/-! ## The `lib.rs` layer: the self-contained binary market

`lib.rs` is a complete program of its own: `initialize_market`,
`place_bet` (one bet account per bettor, created with Anchor `init`),
`resolve_market`, `claim_winnings`, `cancel_market` and `refund_bet`,
with no fees anywhere.  A global state (one market, the bet account
map, the vault and the bettor token balances) and a step function over
all six entrypoints let the claimed-flag monotonicity be stated against
every operation. -/

/-- The market account of `lib.rs`. -/
structure MarketL where
  marketId : ℕ
  creator : ℕ
  oracle : ℕ
  resolutionTime : ℤ
  creationTime : ℤ
  status : MarketStatus
  totalYesAmount : ℕ
  totalNoAmount : ℕ
  totalVolume : ℕ
  minBetAmount : ℕ
  resolvedOutcome : Option Bool
  resolutionTimestamp : Option ℤ
  deriving DecidableEq

/-- The bet account of `lib.rs` (`outcome` is the yes/no boolean). -/
structure BetL where
  market : ℕ
  bettor : ℕ
  outcome : Bool
  amount : ℕ
  timestamp : ℤ
  claimed : Bool
  deriving DecidableEq

/-- Global state: the (already created) market under its PDA key, the
bet account of each bettor (one per `(market, bettor)` PDA), the vault
balance and the bettor token balances. -/
structure GState where
  market : MarketL
  marketKey : ℕ
  bets : ℕ → Option BetL
  vault : ℕ
  balances : ℕ → ℕ

/-- One invocation of a `lib.rs` entrypoint. -/
inductive OpL where
  | initializeMarket (caller : ℕ) (resolutionTime : ℤ) (oracle minBet : ℕ) (now : ℤ)
  | placeBet (caller : ℕ) (outcome : Bool) (amount : ℕ) (now : ℤ)
  | resolveMarket (caller : ℕ) (outcome : Bool) (now : ℤ)
  | claimWinnings (caller : ℕ)
  | cancelMarket (caller : ℕ) (now : ℤ)
  | refundBet (caller : ℕ)

/-- Run one entrypoint (`lib.rs`).  `initialize_market` on the already
existing market PDA fails at the Anchor `init` (the state models the
life of one created market); `place_bet` likewise `init`s the bet
account, so a second bet by the same bettor fails before the handler. -/
def runL (s : GState) : OpL → Except Err GState
  | OpL.initializeMarket _ _ _ _ _ => throw Err.accountAlreadyInitialized
  | OpL.placeBet caller outcome amount now => do
    if (s.bets caller).isSome then throw Err.accountAlreadyInitialized
    if s.market.status ≠ MarketStatus.active then throw Err.marketNotActive
    if ¬ now < s.market.resolutionTime then throw Err.marketExpired
    if ¬ s.market.minBetAmount ≤ amount then throw Err.betAmountTooLow
    if s.balances caller < amount then throw Err.transferFailed
    let yes ←
      if outcome then okOr (chkAdd64 s.market.totalYesAmount amount) Err.overflow
      else pure s.market.totalYesAmount
    let no ←
      if outcome then pure s.market.totalNoAmount
      else okOr (chkAdd64 s.market.totalNoAmount amount) Err.overflow
    let vol ← okOr (chkAdd64 s.market.totalVolume amount) Err.overflow
    pure { market := { s.market with
             totalYesAmount := yes
             totalNoAmount := no
             totalVolume := vol }
           marketKey := s.marketKey
           bets := fun v => if v = caller then
             some { market := s.marketKey, bettor := caller, outcome := outcome,
                    amount := amount, timestamp := now, claimed := false }
             else s.bets v
           vault := s.vault + amount
           balances := fun v => if v = caller then s.balances caller - amount
             else s.balances v }
  | OpL.resolveMarket caller outcome now => do
    if s.market.status ≠ MarketStatus.active then throw Err.marketNotActive
    if caller ≠ s.market.oracle then throw Err.unauthorizedOracle
    if ¬ s.market.resolutionTime ≤ now then throw Err.marketNotExpired
    pure { s with market := { s.market with
             status := MarketStatus.resolved
             resolvedOutcome := some outcome
             resolutionTimestamp := some now } }
  | OpL.claimWinnings caller => do
    match s.bets caller with
    | none => throw Err.accountNotInitialized
    | some bet => do
      if s.market.status ≠ MarketStatus.resolved then throw Err.marketNotResolved
      if bet.claimed then throw Err.alreadyClaimed
      if bet.bettor ≠ caller then throw Err.unauthorizedClaimer
      match s.market.resolvedOutcome with
      | none => throw Err.marketNotResolved
      | some ro => do
        if bet.outcome ≠ ro then throw Err.losingBet
        let totalWinning := if ro then s.market.totalYesAmount else s.market.totalNoAmount
        let totalPool ← okOr (chkAdd64 s.market.totalYesAmount s.market.totalNoAmount)
          Err.overflow
        let prod ← okOr (chkMul128 bet.amount totalPool) Err.overflow
        let q ← okOr (chkDiv prod totalWinning) Err.divisionByZero
        let winnings := q % u64Mod
        if s.vault < winnings then throw Err.transferFailed
        pure { s with
          bets := fun v => if v = caller then some { bet with claimed := true }
            else s.bets v
          vault := s.vault - winnings
          balances := fun v => if v = caller then s.balances caller + winnings
            else s.balances v }
  | OpL.cancelMarket caller now => do
    if s.market.status ≠ MarketStatus.active then throw Err.marketNotActive
    if ¬ (caller = s.market.creator ∨ caller = s.market.oracle) then
      throw Err.unauthorizedCancel
    if ¬ now < s.market.resolutionTime then throw Err.marketExpired
    pure { s with market := { s.market with status := MarketStatus.cancelled } }
  | OpL.refundBet caller => do
    match s.bets caller with
    | none => throw Err.accountNotInitialized
    | some bet => do
      if s.market.status ≠ MarketStatus.cancelled then throw Err.marketNotCancelled
      if bet.claimed then throw Err.alreadyClaimed
      if bet.bettor ≠ caller then throw Err.unauthorizedClaimer
      if s.vault < bet.amount then throw Err.transferFailed
      pure { s with
        bets := fun v => if v = caller then some { bet with claimed := true }
          else s.bets v
        vault := s.vault - bet.amount
        balances := fun v => if v = caller then s.balances caller + bet.amount
          else s.balances v }

/-- The observable effect of one transaction: on an error the runtime
reverts, so the state is unchanged. -/
def stepL (s : GState) (op : OpL) : GState :=
  match runL s op with
  | Except.ok s' => s'
  | Except.error _ => s

set_option maxHeartbeats 2000000 in
/-- No operation un-claims a claimed bet: the claimed flag of any bet
account is monotone along `stepL`. -/
lemma stepL_claimed_mono (s : GState) (u : ℕ) (op : OpL)
    (hcl : (s.bets u).map BetL.claimed = some true) :
    ((stepL s op).bets u).map BetL.claimed = some true := by
  unfold stepL
  cases op with
  | initializeMarket c rt orc mb now => simpa [runL] using hcl
  | placeBet caller o a now =>
    cases hr : runL s (OpL.placeBet caller o a now) with
    | error e => simpa using hcl
    | ok s1 =>
      by_cases hcu : u = caller
      · subst hcu
        cases hb : s.bets u with
        | none => rw [hb] at hcl; simp at hcl
        | some b =>
          simp only [runL, Bind.bind, Except.bind, Pure.pure, Except.pure, okOr,
            hb, Option.isSome_some, if_true] at hr
          cases hr
      · simp only [runL, Bind.bind, Except.bind, Pure.pure, Except.pure, okOr] at hr
        iterate 12 (all_goals try split at hr)
        all_goals cases hr
        all_goals simpa [hcu] using hcl
  | resolveMarket caller o now =>
    cases hr : runL s (OpL.resolveMarket caller o now) with
    | error e => simpa using hcl
    | ok s1 =>
      simp only [runL, Bind.bind, Except.bind, Pure.pure, Except.pure] at hr
      iterate 12 (all_goals try split at hr)
      all_goals cases hr
      all_goals simpa using hcl
  | claimWinnings caller =>
    cases hr : runL s (OpL.claimWinnings caller) with
    | error e => simpa using hcl
    | ok s1 =>
      simp only [runL, Bind.bind, Except.bind, Pure.pure, Except.pure, okOr] at hr
      iterate 12 (all_goals try split at hr)
      all_goals cases hr
      all_goals
        by_cases hcu : u = caller
        · subst hcu
          simp_all
        · simpa [hcu] using hcl
  | cancelMarket caller now =>
    cases hr : runL s (OpL.cancelMarket caller now) with
    | error e => simpa using hcl
    | ok s1 =>
      simp only [runL, Bind.bind, Except.bind, Pure.pure, Except.pure] at hr
      iterate 12 (all_goals try split at hr)
      all_goals cases hr
      all_goals simpa using hcl
  | refundBet caller =>
    cases hr : runL s (OpL.refundBet caller) with
    | error e => simpa using hcl
    | ok s1 =>
      simp only [runL, Bind.bind, Except.bind, Pure.pure, Except.pure, okOr] at hr
      iterate 12 (all_goals try split at hr)
      all_goals cases hr
      all_goals
        by_cases hcu : u = caller
        · subst hcu
          simp_all
        · simpa [hcu] using hcl

/-- C4: on a resolved market, a second `claim_winnings` on an already
claimed bet fails with `AlreadyClaimed` and changes nothing, and no
operation whatsoever reverts a claimed flag.  (A successful claim
leaves exactly this situation: it requires `status == Resolved`, which
is terminal, and sets `claimed = true`.) -/
theorem claimWinnings_exactly_once (s : GState) (u : ℕ) (op : OpL)
    (hres : s.market.status = MarketStatus.resolved)
    (hcl : (s.bets u).map BetL.claimed = some true) :
    runL s (OpL.claimWinnings u) = Except.error Err.alreadyClaimed ∧
    stepL s (OpL.claimWinnings u) = s ∧
    ((stepL s op).bets u).map BetL.claimed = some true := by
  have h1 : runL s (OpL.claimWinnings u) = Except.error Err.alreadyClaimed := by
    cases hb : s.bets u with
    | none => rw [hb] at hcl; simp at hcl
    | some b =>
      have hbc : b.claimed = true := by rw [hb] at hcl; simpa using hcl
      simp [runL, hb, hbc, hres, Bind.bind, Except.bind, Pure.pure, Except.pure]
  refine ⟨h1, ?_, stepL_claimed_mono s u op hcl⟩
  unfold stepL
  rw [h1]

/-- The resolved market for the exactly-once witness. -/
def mktClaimed : MarketL :=
  { marketId := 1, creator := 2, oracle := 7, resolutionTime := 100, creationTime := 0,
    status := MarketStatus.resolved, totalYesAmount := 1000, totalNoAmount := 1000,
    totalVolume := 2000, minBetAmount := 10, resolvedOutcome := some true,
    resolutionTimestamp := some 100 }

/-- A resolved market whose bettor 5 has already claimed. -/
def gClaimed : GState :=
  { market := mktClaimed
    marketKey := 11
    bets := fun v => if v = 5 then
      some { market := 11, bettor := 5, outcome := true, amount := 1000,
             timestamp := 10, claimed := true }
      else none
    vault := 2000
    balances := fun _ => 0 }

/-- Witness for `claimWinnings_exactly_once` (the arbitrary operation
instantiated as a refund attempt by the same bettor). -/
theorem claimWinnings_exactly_once_witness :
    runL gClaimed (OpL.claimWinnings 5) = Except.error Err.alreadyClaimed ∧
    stepL gClaimed (OpL.claimWinnings 5) = gClaimed ∧
    ((stepL gClaimed (OpL.refundBet 5)).bets 5).map BetL.claimed = some true :=
  claimWinnings_exactly_once gClaimed 5 (OpL.refundBet 5) (by simp [gClaimed, mktClaimed])
    (by simp [gClaimed])

/-- C10: `refund_bet` succeeds only on a Cancelled market, for an
unclaimed bet, called by the recorded bettor; on success it transfers
back exactly the recorded stake (no fee), marks the bet claimed, leaves
the market untouched, and a repeated `refund_bet` fails with
`AlreadyClaimed`. -/
theorem refundBet_once (s s' : GState) (u : ℕ)
    (h : runL s (OpL.refundBet u) = Except.ok s') :
    s.market.status = MarketStatus.cancelled ∧
    ∃ b, s.bets u = some b ∧ b.claimed = false ∧ b.bettor = u ∧
      s'.vault = s.vault - b.amount ∧
      s'.balances u = s.balances u + b.amount ∧
      s'.bets u = some { b with claimed := true } ∧
      s'.market = s.market ∧
      runL s' (OpL.refundBet u) = Except.error Err.alreadyClaimed := by
  cases hb : s.bets u with
  | none => simp [runL, hb] at h
  | some b =>
    simp only [runL, hb, Bind.bind, Except.bind, Pure.pure, Except.pure] at h
    by_cases h1 : s.market.status = MarketStatus.cancelled
    · by_cases h2 : b.claimed = true
      · simp [h1, h2] at h
      · by_cases h3 : b.bettor = u
        · by_cases h4 : s.vault < b.amount
          · simp [h1, h2, h3, h4] at h
          · simp only [h1, h2, h3, h4] at h
            simp only [ne_eq, not_true_eq_false, if_false, Bool.false_eq_true,
              ite_false, ite_true, reduceIte, not_false_eq_true] at h
            rw [Except.ok.injEq] at h
            subst h
            refine ⟨h1, b, rfl, by simpa using h2, h3, by simp, by simp, ?_, rfl, ?_⟩
            · simp [h3]
            · simp [runL, h1, h3, Bind.bind, Except.bind, Pure.pure, Except.pure]
        · simp [h1, h2, h3] at h
    · simp [h1] at h

/-- A cancelled market for the refund witness. -/
def mktCancelled : MarketL :=
  { marketId := 1, creator := 2, oracle := 7, resolutionTime := 100, creationTime := 0,
    status := MarketStatus.cancelled, totalYesAmount := 1000, totalNoAmount := 0,
    totalVolume := 1000, minBetAmount := 10, resolvedOutcome := none,
    resolutionTimestamp := none }

/-- The unclaimed bet of bettor 5 awaiting refund. -/
def betRef : BetL :=
  { market := 11, bettor := 5, outcome := true, amount := 1000, timestamp := 10,
    claimed := false }

/-- Cancelled-market state before the refund. -/
def gCancel : GState :=
  { market := mktCancelled
    marketKey := 11
    bets := fun v => if v = 5 then some betRef else none
    vault := 1000
    balances := fun _ => 0 }

/-- The state after bettor 5 is refunded. -/
def gRefunded : GState :=
  { market := mktCancelled
    marketKey := 11
    bets := fun v => if v = 5 then some { betRef with claimed := true }
      else gCancel.bets v
    vault := 0
    balances := fun v => if v = 5 then gCancel.balances 5 + 1000 else gCancel.balances v }

/-- Witness for `refundBet_once`: bettor 5 is refunded exactly the
staked 1000 from the cancelled market, the bet is marked claimed, and a
second refund fails with `AlreadyClaimed`. -/
theorem refundBet_once_witness :
    gCancel.market.status = MarketStatus.cancelled ∧
    gCancel.bets 5 = some betRef ∧ betRef.claimed = false ∧ betRef.bettor = 5 ∧
    gRefunded.vault = gCancel.vault - betRef.amount ∧
    gRefunded.balances 5 = gCancel.balances 5 + betRef.amount ∧
    gRefunded.bets 5 = some { betRef with claimed := true } ∧
    runL gRefunded (OpL.refundBet 5) = Except.error Err.alreadyClaimed := by
  obtain ⟨hc, b, hb, hclb, hbtb, hv, hbal, hbets, hmkt, hsec⟩ :=
    refundBet_once gCancel gRefunded 5 rfl
  have h0 : (some betRef : Option BetL) = some b := by rw [← hb]; rfl
  obtain rfl : betRef = b := by injection h0
  exact ⟨hc, hb, hclb, hbtb, hv, hbal, hbets, hsec⟩
